import Mathlib

/-!
Shallow embedding of the skill-sharing HTTP server (`router.js` and the main
server file): the routing patterns, the version-gated long-poll mechanism
(`waitForChanges` / `updated`), the five route handlers, and the dispatch
boundary of the request listener of `SkillShareServer`.  Strings are modelled as
`List Char`; JS numbers that hold the version counter as `Nat`; promise
resolve callbacks as numeric waiter identities.  Persistence (`loadTalks` /
`writeTalks`) and the static file collaborator are external per the spec and
are not modelled.
-/

set_option maxRecDepth 4000
set_option exponentiation.threshold 1200

/-- A comment record `{author, message}` as stored in the `comments`
array of a talk. -/
structure TComment where
  author : List Char
  message : List Char
deriving DecidableEq, Repr

/-- A talk record as built by the PUT handler:
`{title, presenter, summary, comments}`. -/
structure Talk where
  title : List Char
  presenter : List Char
  summary : List Char
  comments : List TComment
deriving DecidableEq, Repr

/-- A handler response descriptor `{status?, headers?, body?}`; absent fields
are `none` (the dispatch boundary substitutes the defaults). -/
structure Response where
  status : Option Nat := none
  headers : Option (List (List Char × List Char)) := none
  body : Option (List Char) := none
deriving DecidableEq, Repr

/-- The mutable server state of `SkillShareServer`: the talks object (an
association list keyed by title, in property-insertion order), the `version`
counter, and the `waiting` array of pending promise-resolve callbacks,
modelled as numeric identities handed out by `nextId`. -/
structure ServerState where
  talks : List (List Char × Talk)
  version : Nat
  waiting : List Nat
  nextId : Nat
deriving DecidableEq, Repr

/-- The constructor `new SkillShareServer(talks)`: stores the talks object,
sets `version = 0` and `waiting = []`. -/
def initState (talks : List (List Char × Talk)) : ServerState :=
  { talks := talks, version := 0, waiting := [], nextId := 0 }

/-- Property read `talks[title]` on the prototype-less talks object. -/
def getKey (l : List (List Char × Talk)) (k : List Char) : Option Talk :=
  match l with
  | [] => none
  | (k₁, v) :: rest => if k₁ = k then some v else getKey rest k

/-- Property write `talks[title] = talk`: an existing key keeps its
insertion position, a new key is appended. -/
def setKey (l : List (List Char × Talk)) (k : List Char) (v : Talk) :
    List (List Char × Talk) :=
  match l with
  | [] => [(k, v)]
  | (k₁, v₁) :: rest =>
      if k₁ = k then (k₁, v) :: rest else (k₁, v₁) :: setKey rest k v

/-- Property removal `delete talks[title]`. -/
def delKey (l : List (List Char × Talk)) (k : List Char) :
    List (List Char × Talk) :=
  l.filter (fun p => p.1 ≠ k)

/-- Decimal rendering of the version counter (template literal
interpolation of a JS number). -/
def natChars (n : Nat) : List Char :=
  (Nat.repr n).toList

/-- Serialization of one comment, standing for `JSON.stringify` on a comment
object (JSON encoding is an opaque serializer per the spec; a fixed
executable rendering is used so that body equality is meaningful). -/
def serializeComment (c : TComment) : List Char :=
  ("\x7b\x22author\x22:\x22").toList ++ c.author ++ ("\x22,\x22message\x22:\x22").toList
    ++ c.message ++ ("\x22\x7d").toList

/-- Serialization of a list, comma separated inside brackets, as
`JSON.stringify` renders arrays. -/
def serializeList (f : α → List Char) : List α → List Char
  | [] => []
  | [a] => f a
  | a :: rest => f a ++ [','] ++ serializeList f rest

/-- Serialization of one talk record in the field order the PUT handler
builds it. -/
def serializeTalk (t : Talk) : List Char :=
  ("\x7b\x22title\x22:\x22").toList ++ t.title ++ ("\x22,\x22presenter\x22:\x22").toList
    ++ t.presenter ++ ("\x22,\x22summary\x22:\x22").toList ++ t.summary
    ++ ("\x22,\x22comments\x22:[").toList ++ serializeList serializeComment t.comments
    ++ ("]\x7d").toList

/-- `JSON.stringify(talks)` over the array built from `Object.keys(this.talks)`
in `talkResponse` (key enumeration modelled in insertion order; no claim
depends on the enumeration order). -/
def serializeTalks (ts : List (List Char × Talk)) : List Char :=
  ['['] ++ serializeList (fun p => serializeTalk p.2) ts ++ [']']

/-- The quoted ETag value `"${this.version}"`. -/
def quotedVersion (v : Nat) : List Char :=
  ['\x22'] ++ natChars v ++ ['\x22']

/-- `SkillShareServer.talkResponse()`: body is the serialized collection,
headers carry the JSON content type and the current version as a quoted
ETag; no explicit status (the boundary defaults it to 200). -/
def talkResponse (s : ServerState) : Response :=
  { status := none,
    headers := some
      [(("Content-Type").toList, ("application/json").toList),
       (("ETag").toList, quotedVersion s.version)],
    body := some (serializeTalks s.talks) }

/-- `SkillShareServer.waitForChanges(time)`, registration part: the promise
executor pushes the `resolve` callback of the new promise (modelled by the fresh
identity `nextId`) onto `this.waiting` and schedules the timeout.  Returns
the new state and the identity of the registered waiter. -/
def waitForChanges (s : ServerState) : ServerState × Nat :=
  ({ s with waiting := s.waiting ++ [s.nextId], nextId := s.nextId + 1 },
   s.nextId)

/-- Outcome of running the `setTimeout` callback inside `waitForChanges` for
one waiter: the state after the callback, the value the callback returns to
the timer machinery (which `setTimeout` discards), and the value the
promise of the waiter is resolved with by the callback. -/
structure TimeoutResult where
  state : ServerState
  callbackValue : Option Response
  resolvedWith : Option Response
deriving DecidableEq, Repr

/-- The `setTimeout` callback of `waitForChanges` firing for waiter `w`: if
`w` is no longer in `this.waiting` (already resolved by `updated()`) it
returns early; otherwise it filters `w` out of `this.waiting` and then
executes `return {status: 304}`.  That `return` statement only exits the
arrow function passed to `setTimeout`: the callback never invokes the
`resolve` of the promise, so `resolvedWith` is `none` in both branches. -/
def waitTimeout (s : ServerState) (w : Nat) : TimeoutResult :=
  if s.waiting.contains w then
    { state := { s with waiting := s.waiting.filter (fun r => r ≠ w) },
      callbackValue := some { status := some 304 },
      resolvedWith := none }
  else
    { state := s, callbackValue := none, resolvedWith := none }

/-- `SkillShareServer.updated()`: increments `version`, computes one
`talkResponse()` snapshot, calls every pending `resolve` with that same
response, then empties `this.waiting`.  Returns the new state and the list
of (waiter, resolution) deliveries.  The trailing `writeTalks()` call is
external persistence (fire-and-forget) and is not modelled. -/
def updated (s : ServerState) : ServerState × List (Nat × Response) :=
  let s₁ : ServerState := { s with version := s.version + 1 }
  let resp := talkResponse s₁
  ({ s₁ with waiting := [] }, s₁.waiting.map (fun w => (w, resp)))

/-- The source registers no listener for the transport close event (neither
on the request nor on the response object), so a connection closing has no
effect on the server state: no code runs. -/
def onConnectionClose (s : ServerState) : ServerState :=
  s

/-- A JavaScript value as produced by `JSON.parse`: `null`, booleans,
numbers, strings, arrays and plain objects (fields in insertion order).  A
request body that fails to parse is modelled as `none` at the
`Option JsValue` input of the handler (the `catch` branch around `JSON.parse`). -/
inductive JsValue where
  | vnull : JsValue
  | vbool : Bool → JsValue
  | vnum : Int → JsValue
  | vstr : List Char → JsValue
  | varr : List JsValue → JsValue
  | vobj : List (List Char × JsValue) → JsValue

/-- JS falsiness, as tested by `!talk` / `!comment`: `null`, `false`, `0`
and the empty string are falsy; arrays and objects are always truthy. -/
def JsValue.falsy : JsValue → Bool
  | .vnull => true
  | .vbool b => !b
  | .vnum n => n = 0
  | .vstr s => s.isEmpty
  | .varr _ => false
  | .vobj _ => false

/-- Field access `v.name`: defined (non-`undefined`) only on objects with
that field; `none` models `undefined`. -/
def JsValue.getField : JsValue → List Char → Option JsValue
  | .vobj fields, k =>
      match fields.find? (fun p => p.1 = k) with
      | some p => some p.2
      | none => none
  | _, _ => none

/-- The test `typeof v.name == "string"`. -/
def JsValue.hasStrField (v : JsValue) (k : List Char) : Bool :=
  match v.getField k with
  | some (.vstr _) => true
  | _ => false

/-- The GET `/talks/{title}` handler: 200 with the talk serialized as JSON
if present, else 404 with a descriptive body.  It never mutates state. -/
def getTalk (s : ServerState) (title : List Char) : Response :=
  match getKey s.talks title with
  | some t =>
      { status := none,
        headers := some [(("Content-Type").toList, ("application/json").toList)],
        body := some (serializeTalk t) }
  | none =>
      { status := some 404,
        body := some (("No talk \x27").toList ++ title ++ ("\x27 found").toList) }

/-- The DELETE `/talks/{title}` handler: removes the talk and calls
`updated()` only when the title is present; responds 204 always.  Returns
(new state, waiter deliveries made by `updated`, response). -/
def deleteTalk (s : ServerState) (title : List Char) :
    ServerState × List (Nat × Response) × Response :=
  if (getKey s.talks title).isSome then
    let s₁ : ServerState := { s with talks := delKey s.talks title }
    let u := updated s₁
    (u.1, u.2, { status := some 204 })
  else
    (s, [], { status := some 204 })

/-- The validity test of the body in the PUT handler:
`!talk || typeof talk.presenter != "string" || typeof talk.summary != "string"`
negated. -/
def talkBodyValid (v : JsValue) : Bool :=
  !v.falsy && v.hasStrField ("presenter").toList && v.hasStrField ("summary").toList

/-- The PUT `/talks/{title}` handler: 400 "Invalid JSON" when the body does
not parse, 400 "Bad talk data" when it is falsy or lacks string `presenter`
or `summary`, otherwise stores a fresh talk (empty comments), calls
`updated()` and responds 204. -/
def putTalk (s : ServerState) (title : List Char) (body : Option JsValue) :
    ServerState × List (Nat × Response) × Response :=
  match body with
  | none => (s, [], { status := some 400, body := some ("Invalid JSON").toList })
  | some talk =>
      if talkBodyValid talk then
        let newTalk : Talk :=
          { title := title,
            presenter := (match talk.getField ("presenter").toList with
                          | some (.vstr p) => p
                          | _ => []),
            summary := (match talk.getField ("summary").toList with
                        | some (.vstr p) => p
                        | _ => []),
            comments := [] }
        let s₁ : ServerState := { s with talks := setKey s.talks title newTalk }
        let u := updated s₁
        (u.1, u.2, { status := some 204 })
      else
        (s, [], { status := some 400, body := some ("Bad talk data").toList })

/-- The validity test of the body in the POST comment handler:
`!comment || typeof comment.author != "string" || typeof comment.message != "string"`
negated. -/
def commentBodyValid (v : JsValue) : Bool :=
  !v.falsy && v.hasStrField ("author").toList && v.hasStrField ("message").toList

/-- The comment value appended by the POST handler (its `author` and
`message` fields are known to be strings when this is reached). -/
def commentOf (v : JsValue) : TComment :=
  { author := (match v.getField ("author").toList with
               | some (.vstr a) => a
               | _ => []),
    message := (match v.getField ("message").toList with
                | some (.vstr m) => m
                | _ => []) }

/-- The POST `/talks/{title}/comments` handler: 400 "Invalid JSON" when the
body does not parse; 404 "Bad comment data" when the parsed value is falsy
or lacks string `author`/`message`; otherwise, if the talk exists, pushes
the comment, calls `updated()` and responds 204; if not, 404
"No talk ... found" naming the title. -/
def postComment (s : ServerState) (title : List Char) (body : Option JsValue) :
    ServerState × List (Nat × Response) × Response :=
  match body with
  | none => (s, [], { status := some 400, body := some ("Invalid JSON").toList })
  | some comment =>
      if commentBodyValid comment then
        match getKey s.talks title with
        | some t =>
            let t₁ : Talk := { t with comments := t.comments ++ [commentOf comment] }
            let s₁ : ServerState := { s with talks := setKey s.talks title t₁ }
            let u := updated s₁
            (u.1, u.2, { status := some 204 })
        | none =>
            (s, [],
             { status := some 404,
               body := some (("No talk \x27").toList ++ title ++ ("\x27 found").toList) })
      else
        (s, [], { status := some 404, body := some ("Bad comment data").toList })

/-- Header access `request.headers[name]` followed by implicit `ToString`
coercion inside `RegExp.exec`: an absent header is `undefined`, which `exec`
coerces to the string `"undefined"`. -/
def headerChars (h : Option (List Char)) : List Char :=
  match h with
  | some cs => cs
  | none => ("undefined").toList

/-- Capture of the unanchored regex `/"(.*)"/` run on a header value: with a
greedy `.*`, the leftmost match starts at the first double quote and
backtracks to the last double quote, so the capture is everything strictly
between the first and the last `"`; if the value does not contain two
double quotes there is no match. -/
def extractTag (cs : List Char) : Option (List Char) :=
  let afterFirst := ((cs.dropWhile (fun c => c ≠ '\x22')).drop 1)
  if afterFirst.contains '\x22' then
    some (((afterFirst.reverse.dropWhile (fun c => c ≠ '\x22')).drop 1).reverse)
  else
    none

/-- The JS whitespace characters stripped by `ToNumber` on strings: the
WhiteSpace and LineTerminator sets of ECMA-262. -/
def isJsSpace (c : Char) : Bool :=
  c.toNat = 0x09 ∨ c.toNat = 0x0A ∨ c.toNat = 0x0B ∨ c.toNat = 0x0C ∨
  c.toNat = 0x0D ∨ c.toNat = 0x20 ∨ c.toNat = 0xA0 ∨ c.toNat = 0x1680 ∨
  (0x2000 ≤ c.toNat ∧ c.toNat ≤ 0x200A) ∨ c.toNat = 0x2028 ∨
  c.toNat = 0x2029 ∨ c.toNat = 0x202F ∨ c.toNat = 0x205F ∨
  c.toNat = 0x3000 ∨ c.toNat = 0xFEFF

/-- Numeric value of a hex digit, used both by `ToNumber` hex literals and
the `%XY` escape sequences of `decodeURIComponent`. -/
def hexDigit (c : Char) : Option Nat :=
  if '0' ≤ c ∧ c ≤ '9' then some (c.toNat - ('0').toNat)
  else if 'a' ≤ c ∧ c ≤ 'f' then some (c.toNat - ('a').toNat + 10)
  else if 'A' ≤ c ∧ c ≤ 'F' then some (c.toNat - ('A').toNat + 10)
  else none

/-- Octal digit, for `0o` literals. -/
def isOctDigitCh (c : Char) : Bool :=
  '0' ≤ c ∧ c ≤ '7'

/-- Binary digit, for `0b` literals. -/
def isBinDigitCh (c : Char) : Bool :=
  c = '0' ∨ c = '1'

/-- Decimal value of a digit string. -/
def decVal (ds : List Char) : Nat :=
  ds.foldl (fun a c => a * 10 + (c.toNat - ('0').toNat)) 0

/-- A JS number as produced by `ToNumber` on a string: NaN, an infinity
(either sign — both compare unequal to every version), or an exact finite
value `±m·10^E` held unrounded (`neg` is the sign, `m` the decimal
mantissa, `E` the decimal exponent). -/
inductive JsNumber where
  | nan : JsNumber
  | inf : JsNumber
  | fin : Bool → Nat → Int → JsNumber
deriving DecidableEq, Repr

/-- The ExponentPart digits of a decimal literal, which must run to the end
of the string: an optional sign followed by one or more digits. -/
def expDigits (cs : List Char) : Option Int :=
  match cs with
  | '+' :: ds =>
      if ds ≠ [] ∧ ds.all (fun c => c.isDigit) then some (decVal ds) else none
  | '-' :: ds =>
      if ds ≠ [] ∧ ds.all (fun c => c.isDigit) then some (-(decVal ds : Int))
      else none
  | ds =>
      if ds ≠ [] ∧ ds.all (fun c => c.isDigit) then some (decVal ds) else none

/-- What may follow the digits of a decimal literal: nothing (exponent 0),
or an `e`/`E` exponent part; anything else makes the literal invalid. -/
def expTail (cs : List Char) : Option Int :=
  match cs with
  | [] => some 0
  | 'e' :: rest => expDigits rest
  | 'E' :: rest => expDigits rest
  | _ => none

/-- The exact value of a decimal literal with integer digits `ipart`,
fraction digits `fpart` and decimal exponent `e`, as a mantissa-exponent
pair: the value is `mantissa·10^(e - |fpart|)`. -/
def decimalME (ipart fpart : List Char) (e : Int) : Nat × Int :=
  (decVal (ipart ++ fpart), e - (fpart.length : Int))

/-- StrUnsignedDecimalLiteral of ECMA-262 (without the `Infinity` case):
`Digits [. Digits?] Exp?` or `. Digits Exp?`, valued exactly. -/
def unsignedDecME (cs : List Char) : Option (Nat × Int) :=
  let ipart := cs.takeWhile (fun c => c.isDigit)
  let rest₁ := cs.drop ipart.length
  match rest₁ with
  | '.' :: rest₂ =>
      let fpart := rest₂.takeWhile (fun c => c.isDigit)
      let rest₃ := rest₂.drop fpart.length
      if ipart = [] ∧ fpart = [] then none
      else (expTail rest₃).map (decimalME ipart fpart)
  | _ =>
      if ipart = [] then none
      else (expTail rest₁).map (decimalME ipart [])

/-- A signed decimal tail: the literal `Infinity` or an unsigned decimal
literal with the sign applied; NaN otherwise. -/
def decOrInf (cs : List Char) (neg : Bool) : JsNumber :=
  if cs = ("Infinity").toList then .inf
  else
    match unsignedDecME cs with
    | some me => .fin neg me.1 me.2
    | none => .nan

/-- A non-decimal integer literal body (after `0x`/`0o`/`0b`): one or more
digits of the base, valued exactly; NaN otherwise. -/
def radixME (ds : List Char) (ok : Char → Bool) (base : Nat)
    (dval : Char → Nat) : JsNumber :=
  if ds ≠ [] ∧ ds.all ok then
    .fin false (ds.foldl (fun a c => a * base + dval c) 0) 0
  else .nan

/-- JS `ToNumber` on the captured tag string, as consulted by the loose
comparison `tag[1] != server.version`: strip the JS whitespace from both
ends; the empty remainder is 0; otherwise parse the StringNumericLiteral
grammar of ECMA-262 — an optionally signed decimal literal with fraction
and exponent, `Infinity`, or an unsigned `0x`/`0o`/`0b` integer — and keep
its exact value; anything else is NaN. -/
def jsToNumber (cs : List Char) : JsNumber :=
  let t := ((cs.dropWhile isJsSpace).reverse.dropWhile isJsSpace).reverse
  match t with
  | [] => .fin false 0 0
  | '+' :: rest => decOrInf rest false
  | '-' :: rest => decOrInf rest true
  | '0' :: 'x' :: rest => radixME rest (fun c => (hexDigit c).isSome) 16
      (fun c => (hexDigit c).getD 0)
  | '0' :: 'X' :: rest => radixME rest (fun c => (hexDigit c).isSome) 16
      (fun c => (hexDigit c).getD 0)
  | '0' :: 'o' :: rest => radixME rest isOctDigitCh 8
      (fun c => c.toNat - ('0').toNat)
  | '0' :: 'O' :: rest => radixME rest isOctDigitCh 8
      (fun c => c.toNat - ('0').toNat)
  | '0' :: 'b' :: rest => radixME rest isBinDigitCh 2
      (fun c => c.toNat - ('0').toNat)
  | '0' :: 'B' :: rest => radixME rest isBinDigitCh 2
      (fun c => c.toNat - ('0').toNat)
  | _ => decOrInf t false

/-- Floor base-2 logarithm by structural recursion on a fuel bound, so that
it evaluates by kernel reduction (`Nat.log2` itself is defined by
well-founded recursion). -/
def natLog2 : Nat → Nat → Nat
  | 0, _ => 0
  | fuel + 1, n => if n ≤ 1 then 0 else natLog2 fuel (n / 2) + 1

/-- Comparison of the exact value `m·10^E` against the dyadic rational
`P/2^K`, by cross multiplication in exact integer arithmetic. -/
def cmpPow10 (m : Nat) (E : Int) (P K : Nat) : Ordering :=
  if 0 ≤ E then compare (m * 10 ^ E.toNat * 2 ^ K) P
  else compare (m * 2 ^ K) (P * 10 ^ (-E).toNat)

/-- Whether the exact value `±m·10^E` rounds (IEEE-754 binary64, round to
nearest, ties to even) to exactly the integer `v` — which is what the loose
`==` between the converted string and the version computes, the version
itself being exactly representable.  `v = 0` covers both zeroes: every
value of magnitude at most `2^-1075` (half the least subnormal, the tie
going to the even zero) rounds to ±0.  A negative value never rounds to a
positive `v`.  For `v ≥ 1`, `v` must be representable (at most 53
significant bits, checked with `v mod 2^(e-52) = 0`); the value must then
lie inside the midpoint interval `(v - gap/2, v + ulp/2)` around `v` —
where the lower gap is `ulp/2` when `v` is a power of two and `ulp`
otherwise — with the boundaries themselves included exactly when the
binary mantissa of `v` is even.  Both interval ends are the dyadic
rationals `(v·2^54 ∓ offset)/2^54`. -/
def doubleEqVal (neg : Bool) (m : Nat) (E : Int) (v : Nat) : Bool :=
  if v = 0 then
    if 0 ≤ E then m * 10 ^ E.toNat * 2 ^ 1075 ≤ 1
    else m * 2 ^ 1075 ≤ 10 ^ (-E).toNat
  else if neg then false
  else
    let e := natLog2 v v
    if 52 < e ∧ ¬ (v % 2 ^ (e - 52) = 0) then false
    else
      let lo : Nat := v * 2 ^ 54 - (if v = 2 ^ e then 2 ^ e else 2 ^ e * 2)
      let hi : Nat := v * 2 ^ 54 + 2 ^ e * 2
      let mant : Nat := if e ≤ 52 then v * 2 ^ (52 - e) else v / 2 ^ (e - 52)
      let cLo := cmpPow10 m E lo 54
      let cHi := cmpPow10 m E hi 54
      (cLo = Ordering.gt ∧ cHi = Ordering.lt) ∨
        (mant % 2 = 0 ∧ (cLo = Ordering.eq ∨ cHi = Ordering.eq))

/-- The loose equality `tag[1] == server.version` (the handler tests its
negation): the captured string is converted with `ToNumber`, rounded to a
binary64 double, and compared numerically with the version; NaN and the
infinities compare unequal to everything. -/
def tagEqVersion (cs : List Char) (v : Nat) : Bool :=
  match jsToNumber cs with
  | .fin neg m E => doubleEqVal neg m E v
  | _ => false

/-- Word characters for the regex word-boundary assertion `\b`. -/
def isWordChar (c : Char) : Bool :=
  c.isAlphanum || c = '_'

/-- The leading maximal digit run of a list (the greedy `(\d+)` capture). -/
def leadingDigits (cs : List Char) : List Char :=
  cs.takeWhile (fun c => c.isDigit)

/-- Matching of the regex `/\bwait=(\d+)/` against the `Prefer` header:
scan for the leftmost position that begins `wait=` followed by at least one
digit and is preceded by a non-word character (or the start); the capture
is the maximal digit run, and the handler applies `Number` to it.  `prev`
carries the character before the current position for the `\b` test. -/
def findWait (prev : Option Char) (cs : List Char) : Option Nat :=
  match cs with
  | [] => none
  | c :: rest =>
      if (match prev with
          | none => true
          | some p => !isWordChar p) then
        match cs with
        | 'w' :: 'a' :: 'i' :: 't' :: '=' :: tail =>
            if (leadingDigits tail).isEmpty then findWait (some c) rest
            else some ((leadingDigits tail).foldl
                        (fun acc d => acc * 10 + (d.toNat - ('0').toNat)) 0)
        | _ => findWait (some c) rest
      else
        findWait (some c) rest

/-- Outcome of the GET `/talks` handler: either an immediate response, or
the handler returns `this.waitForChanges(seconds)` — registering a waiter
whose promise the response then awaits. -/
inductive GetTalksOutcome where
  | immediate : Response → GetTalksOutcome
  | waitFor : Nat → GetTalksOutcome
deriving DecidableEq, Repr

/-- The GET `/talks` handler: runs `/"(.*)"/` on the `If-None-Match` header
and `/\bwait=(\d+)/` on the `Prefer` header; with no tag capture or a tag
loosely unequal to the version it answers `talkResponse()` at once; with a
current tag and no wait preference it answers 304; otherwise it returns
`waitForChanges(Number(wait[1]))`. -/
def getTalksHandler (s : ServerState) (inm prefer : Option (List Char)) :
    GetTalksOutcome :=
  let tag := extractTag (headerChars inm)
  let wait := findWait none (headerChars prefer)
  match tag with
  | none => .immediate (talkResponse s)
  | some t =>
      if !tagEqVersion t s.version then .immediate (talkResponse s)
      else
        match wait with
        | none => .immediate { status := some 304 }
        | some n => .waitFor n

/-- Matching of the anchored regex `/^\/talks\/([^\/]+)$/` (the `talkPath`
constant): the whole path must be `/talks/` followed by one or more
non-slash characters, which form the capture. -/
def talkPathExec (p : List Char) : Option (List Char) :=
  let seg := p.drop 7
  if p.take 7 = ("/talks/").toList ∧ seg ≠ [] ∧ seg.all (fun c => c ≠ '/') then
    some seg
  else
    none

/-- Matching of the anchored regex `/^\/talks\/([^\/]+)\/comments$/` (the
`talkPathAddComment` constant): the whole path must be `/talks/`, then one
or more non-slash characters (the capture), then `/comments`. -/
def talkPathAddCommentExec (p : List Char) : Option (List Char) :=
  let rest := p.drop 7
  let seg := (rest.reverse.drop 9).reverse
  if p.take 7 = ("/talks/").toList ∧
     rest.reverse.take 9 = ("/comments").toList.reverse ∧
     seg ≠ [] ∧ seg.all (fun c => c ≠ '/') then
    some seg
  else
    none

/-- Matching of the anchored regex `/^\/talks$/` (the `talksPath`
constant): the path must be exactly `/talks`; no capture group. -/
def talksPathExec (p : List Char) : Bool :=
  p = ("/talks").toList

/-- Reading one UTF-8 continuation byte, which must itself be a `%XY`
escape with value in `[0x80, 0xBF]`; anything else raises `URIError`. -/
def contByte (cs : List Char) : Option (Nat × List Char) :=
  match cs with
  | '%' :: h₁ :: h₂ :: rest =>
      match hexDigit h₁, hexDigit h₂ with
      | some a, some b =>
          let v := 16 * a + b
          if 0x80 ≤ v ∧ v ≤ 0xBF then some (v, rest) else none
      | _, _ => none
  | _ => none

/-- `decodeURIComponent` on a captured path segment, with explicit fuel
(`fuel ≥ cs.length` suffices; the top-level wrapper passes the length).
Characters other than `%` pass through; a `%` must begin a `%XY` hex escape;
escape bytes are decoded as strict UTF-8 (with the standard restricted
ranges ruling out overlong forms and surrogates).  `none` models a thrown
`URIError`. -/
def decodeAux : Nat → List Char → Option (List Char)
  | 0, [] => some []
  | 0, _ :: _ => none
  | _ + 1, [] => some []
  | fuel + 1, '%' :: cs =>
      (match cs with
       | h₁ :: h₂ :: rest =>
           match hexDigit h₁, hexDigit h₂ with
           | some a, some b =>
               let v := 16 * a + b
               if v < 0x80 then
                 (decodeAux fuel rest).map (fun ds => Char.ofNat v :: ds)
               else if 0xC2 ≤ v ∧ v ≤ 0xDF then
                 match contByte rest with
                 | some (c₁, rest₁) =>
                     (decodeAux fuel rest₁).map
                       (fun ds => Char.ofNat ((v - 0xC0) * 64 + (c₁ - 0x80)) :: ds)
                 | none => none
               else if 0xE0 ≤ v ∧ v ≤ 0xEF then
                 match contByte rest with
                 | some (c₁, rest₁) =>
                     if (v = 0xE0 ∧ c₁ < 0xA0) ∨ (v = 0xED ∧ 0x9F < c₁) then none
                     else
                       match contByte rest₁ with
                       | some (c₂, rest₂) =>
                           (decodeAux fuel rest₂).map
                             (fun ds => Char.ofNat
                               ((v - 0xE0) * 4096 + (c₁ - 0x80) * 64 + (c₂ - 0x80)) :: ds)
                       | none => none
                 | none => none
               else if 0xF0 ≤ v ∧ v ≤ 0xF4 then
                 match contByte rest with
                 | some (c₁, rest₁) =>
                     if (v = 0xF0 ∧ c₁ < 0x90) ∨ (v = 0xF4 ∧ 0x8F < c₁) then none
                     else
                       match contByte rest₁ with
                       | some (c₂, rest₂) =>
                           match contByte rest₂ with
                           | some (c₃, rest₃) =>
                               (decodeAux fuel rest₃).map
                                 (fun ds => Char.ofNat
                                   ((v - 0xF0) * 262144 + (c₁ - 0x80) * 4096
                                     + (c₂ - 0x80) * 64 + (c₃ - 0x80)) :: ds)
                           | none => none
                       | none => none
                 | none => none
               else none
           | _, _ => none
       | _ => none)
  | fuel + 1, c :: cs => (decodeAux fuel cs).map (fun ds => c :: ds)

/-- `decodeURIComponent(capture)`; `none` models a thrown `URIError`. -/
def decodeURIComponentFn (cs : List Char) : Option (List Char) :=
  decodeAux cs.length cs

/-- `match.slice(1).map(decodeURIComponent)`: all captures decoded, or
`none` when the first failing capture throws. -/
def decodeAll : List (List Char) → Option (List (List Char))
  | [] => some []
  | c :: cs =>
      match decodeURIComponentFn c with
      | some d => (decodeAll cs).map (fun ds => d :: ds)
      | none => none

/-- The three route patterns registered with `router.add`. -/
inductive RPattern where
  | talkP : RPattern
  | commentP : RPattern
  | talksP : RPattern
deriving DecidableEq, Repr

/-- `urlRegEx.exec(path)` for the pattern of a route, as the capture list of a
successful match. -/
def RPattern.exec : RPattern → List Char → Option (List (List Char))
  | .talkP, p => (talkPathExec p).map (fun s => [s])
  | .commentP, p => (talkPathAddCommentExec p).map (fun s => [s])
  | .talksP, p => if talksPathExec p then some [] else none

/-- The route table in registration order, each route carrying the index of
its handler. -/
def routes : List (List Char × RPattern × Nat) :=
  [(("GET").toList, .talkP, 0),
   (("DELETE").toList, .talkP, 1),
   (("PUT").toList, .talkP, 2),
   (("POST").toList, .commentP, 3),
   (("GET").toList, .talksP, 4)]

/-- Outcome of `Router.resolve`: no route matched (`null`, the caller falls
back to the static file server), a `URIError` thrown by
`decodeURIComponent` on a capture of the selected route (there is no
`try`/`catch` in `resolve`), or the selected handler invoked with the
decoded captures. -/
inductive ResolveOutcome where
  | unhandled : ResolveOutcome
  | uriError : Nat → ResolveOutcome
  | handled : Nat → List (List Char) → ResolveOutcome
deriving DecidableEq, Repr

/-- `Router.resolve` over a route list: scan in registration order; a route
is skipped when its regex does not match the path or its method differs
from the request method; the first route passing both tests has its
captures decoded and its handler invoked. -/
def resolveFrom (rs : List (List Char × RPattern × Nat))
    (method path : List Char) : ResolveOutcome :=
  match rs with
  | [] => .unhandled
  | (m, pat, h) :: rest =>
      match pat.exec path with
      | none => resolveFrom rest method path
      | some caps =>
          if method ≠ m then resolveFrom rest method path
          else
            match decodeAll caps with
            | some ds => .handled h ds
            | none => .uriError h

/-- `router.resolve(this, request)` against the five registered routes. -/
def resolve (method path : List Char) : ResolveOutcome :=
  resolveFrom routes method path

/-- What the request listener installed in the `SkillShareServer`
constructor does with a request, at the dispatch level: `router.resolve` is
called synchronously and outside any `try`; a `URIError` thrown by capture
decoding therefore escapes the listener uncaught (the `.catch` below only
guards the promise of the handler, which does not exist yet); a `null` result
delegates to the static file server; a promise result enters the
`.catch(...).then(write)` chain. -/
inductive ListenerOutcome where
  | staticFile : ListenerOutcome
  | uncaughtThrow : ListenerOutcome
  | promiseChain : Nat → List (List Char) → ListenerOutcome
deriving DecidableEq, Repr

/-- The dispatch step of the request listener as a function of the resolve
outcome. -/
def listener (method path : List Char) : ListenerOutcome :=
  match resolve method path with
  | .unhandled => .staticFile
  | .uriError _ => .uncaughtThrow
  | .handled h ds => .promiseChain h ds

/-- The `defaultHeaders` constant: `{"Content-Type": "text/plain"}`. -/
def defaultHeaders : List (List Char × List Char) :=
  [(("Content-Type").toList, ("text/plain").toList)]

/-- A JS error value as seen by the `.catch` at the dispatch boundary: its
`String(error)` rendering, and whatever `status` / `body` / `headers`
properties it happens to carry (`none` models `undefined`). -/
structure ErrObj where
  toStr : List Char
  status : Option Nat := none
  body : Option (List Char) := none
  headers : Option (List (List Char × List Char)) := none
deriving DecidableEq, Repr

/-- The `.catch` at the dispatch boundary:
`if (error.status != null) return error; return {body: String(error), status: 500}`.
When the error carries a status, the error object itself becomes the
response descriptor. -/
def catchBoundary (e : ErrObj) : Response :=
  if e.status.isSome then
    { status := e.status, body := e.body, headers := e.headers }
  else
    { status := some 500, body := some e.toStr, headers := none }

/-- The concrete write performed at the end of the dispatch chain. -/
structure Written where
  status : Nat
  headers : List (List Char × List Char)
  body : Option (List Char)
deriving DecidableEq, Repr

/-- The `.then` at the dispatch boundary: destructures the response with
defaults `status = 200` and `headers = defaultHeaders`, then writes head
and body. -/
def writeResponse (r : Response) : Written :=
  { status := r.status.getD 200,
    headers := r.headers.getD defaultHeaders,
    body := r.body }

/-- The full boundary behaviour on a handler outcome: a fulfilled promise
is written as is (with defaults); a rejected one first passes through
`catchBoundary`. -/
def boundary (o : Except ErrObj Response) : Written :=
  match o with
  | .ok r => writeResponse r
  | .error e => writeResponse (catchBoundary e)

/-- One request, at the granularity the five handlers consume: decoded
title captures, parsed-or-failed bodies, and the two headers read by the
list handler. -/
inductive Request where
  | rGetTalk : List Char → Request
  | rDeleteTalk : List Char → Request
  | rPutTalk : List Char → Option JsValue → Request
  | rPostComment : List Char → Option JsValue → Request
  | rGetTalks : Option (List Char) → Option (List Char) → Request

/-- The state transition of one handled request: reads leave the state
unchanged; mutating handlers thread their state; a GET `/talks` that
returns `waitForChanges` registers its waiter. -/
def step (s : ServerState) (r : Request) : ServerState :=
  match r with
  | .rGetTalk _ => s
  | .rDeleteTalk t => (deleteTalk s t).1
  | .rPutTalk t b => (putTalk s t b).1
  | .rPostComment t b => (postComment s t b).1
  | .rGetTalks inm prefer =>
      match getTalksHandler s inm prefer with
      | .immediate _ => s
      | .waitFor _ => (waitForChanges s).1

/-- Whether a request is a successful mutation in state `s`: a DELETE of a
present title, a PUT with a valid body, or a comment POST with a valid
body on a present title — exactly the cases in which the handler calls
`updated()`. -/
def isMutation (s : ServerState) (r : Request) : Bool :=
  match r with
  | .rGetTalk _ => false
  | .rDeleteTalk t => (getKey s.talks t).isSome
  | .rPutTalk _ b =>
      match b with
      | some v => talkBodyValid v
      | none => false
  | .rPostComment t b =>
      match b with
      | some v => commentBodyValid v && (getKey s.talks t).isSome
      | none => false
  | .rGetTalks _ _ => false

/-- Running a request sequence, counting the successful mutations along the
trajectory. -/
def runCount (s : ServerState) : List Request → ServerState × Nat
  | [] => (s, 0)
  | r :: rest =>
      let next := runCount (step s r) rest
      (next.1, (if isMutation s r then 1 else 0) + next.2)

/-- Helper: filtering out a value removes it, in `List.contains` terms. -/
theorem contains_filter_ne (l : List Nat) (w : Nat) :
    (l.filter (fun r => r ≠ w)).contains w = false := by
  simp [List.contains, List.elem_eq_mem, List.mem_filter]

/-- C1: the claim says a waiter whose deadline elapses with no intervening
notify resolves to a 304 response and is removed from the pending set.  The
code only performs the removal: the timer callback filters the waiter out
of `this.waiting` and then returns `{status: 304}` from the `setTimeout`
callback, never invoking the resolve callback of the promise, so the
resolution delivered to the waiter is `none` and the long-poll request
hangs.  This theorem evaluates the code at the failing input: a fresh
server with a single registered waiter whose timeout fires. -/
theorem C1_timeout_never_resolves :
    (waitTimeout (waitForChanges (initState [])).1 0).resolvedWith = none ∧
    (waitTimeout (waitForChanges (initState [])).1 0).state.waiting = [] ∧
    (waitTimeout (waitForChanges (initState [])).1 0).callbackValue =
      some { status := some 304 } :=
  ⟨rfl, rfl, rfl⟩

/-- C2: one call to `updated()` increments `version` by exactly 1, leaves
the pending set empty, and delivers to every one of the K pending waiters
the single snapshot computed after the increment — the identical response,
hence identical version (in its quoted ETag) and identical serialized
body. -/
theorem C2_notify_releases_all_waiters (s : ServerState) :
    (updated s).1.version = s.version + 1 ∧
    (updated s).1.waiting = [] ∧
    (updated s).2 = s.waiting.map (fun w => (w, talkResponse (updated s).1)) :=
  ⟨rfl, rfl, rfl⟩

/-- C6: the claim says a malformed percent-encoded capture yields a
4xx-class error response.  In the code, `decodeURIComponent` is applied to
the captures inside `Router.resolve`, synchronously, with no `try`/`catch`
and before any promise exists, so the `URIError` escapes the request
listener uncaught; no response at all is produced.  Evaluated at the
failing input `GET /talks/%` (the capture `%` is a truncated escape). -/
theorem C6_decode_error_escapes_uncaught :
    resolve (("GET").toList) (("/talks/%").toList) = ResolveOutcome.uriError 0 ∧
    listener (("GET").toList) (("/talks/%").toList) =
      ListenerOutcome.uncaughtThrow := by
  constructor <;> rfl

/-- C7 counterexample: the claim says a waiter whose transport connection
closes is removed from the pending set.  The source installs no close
listener, so after a close event the freshly registered waiter is still
pending — `contains 0` is not `false`. -/
theorem C7_close_does_not_remove :
    ¬ ((onConnectionClose (waitForChanges (initState [])).1).waiting.contains 0
        = false) := by
  decide

/-- C7 amended: a transport close has no effect on the server state (no
close handler exists), so the waiter stays pending and a later notify will
resolve it and attempt a response write; the pending set is nevertheless
cleaned up, because the timeout callback of each waiter removes it at its
deadline (without resolving it) and `updated()` empties the whole set. -/
theorem C7_close_is_noop_cleanup_by_timeout :
    (∀ s, onConnectionClose s = s) ∧
    (∀ s w, s.waiting.contains w = true →
      (waitTimeout s w).state.waiting.contains w = false ∧
      (waitTimeout s w).resolvedWith = none) ∧
    (∀ s, (updated s).1.waiting = []) := by
  refine ⟨fun s => rfl, fun s w h => ?_, fun s => rfl⟩
  rw [waitTimeout, if_pos h]
  exact ⟨contains_filter_ne s.waiting w, rfl⟩

/-- C7 amended witness at a concrete pending waiter. -/
theorem C7_close_witness :
    (waitTimeout { initState [] with waiting := [5] } 5).state.waiting.contains 5
      = false :=
  (C7_close_is_noop_cleanup_by_timeout.2.1 { initState [] with waiting := [5] } 5
    (by decide)).1

/-- C9: a rejected handler promise is converted at the dispatch boundary to
a written 500 response whose body is the stringified error — unless the
error value carries a non-null `status`, in which case the error object
itself is used as the response descriptor, preserving its status (and its
`body`/`headers`, with the usual defaults for absent fields). -/
theorem C9_boundary_converts_errors (e : ErrObj) :
    (e.status = none →
      boundary (Except.error e) =
        { status := 500, headers := defaultHeaders, body := some e.toStr }) ∧
    (∀ n, e.status = some n →
      boundary (Except.error e) =
        { status := n, headers := e.headers.getD defaultHeaders,
          body := e.body }) := by
  constructor
  · intro h
    simp [boundary, catchBoundary, writeResponse, h]
  · intro n h
    simp [boundary, catchBoundary, writeResponse, h]

/-- C9 witness: a status-less error is written as 500 with the stringified
error, and an error carrying a 404 status is written as 404. -/
theorem C9_boundary_witness :
    boundary (Except.error { toStr := ("Error: boom").toList }) =
      { status := 500, headers := defaultHeaders,
        body := some (("Error: boom").toList) } ∧
    boundary (Except.error { toStr := [], status := some 404 }) =
      { status := 404, headers := defaultHeaders, body := none } :=
  ⟨(C9_boundary_converts_errors _).1 rfl,
   (C9_boundary_converts_errors _).2 404 rfl⟩

/-- C3: the three-way negotiation of the GET `/talks` handler.  With no
quoted validator captured from `If-None-Match`, or a captured validator
that does not equal the current version (under the loose comparison the
handler performs: `ToNumber` of the captured string, rounded to binary64,
against the numeric version), it immediately answers the full snapshot:
`talkResponse()`, written with default status 200, whose body is the
serialized collection and whose headers carry the current version as a
quoted ETag.  With a current validator and no `wait=` preference it
immediately answers 304.  With a current validator and `wait=N` it returns
`waitForChanges(N)` and the response is whatever that promise resolves
to. -/
theorem C3_list_talks_negotiation (s : ServerState)
    (inm prefer : Option (List Char)) :
    ((extractTag (headerChars inm) = none ∨
      (∃ t, extractTag (headerChars inm) = some t ∧
        tagEqVersion t s.version = false)) →
      getTalksHandler s inm prefer = GetTalksOutcome.immediate (talkResponse s) ∧
      (writeResponse (talkResponse s)).status = 200 ∧
      (talkResponse s).body = some (serializeTalks s.talks) ∧
      (talkResponse s).headers = some
        [(("Content-Type").toList, ("application/json").toList),
         (("ETag").toList, quotedVersion s.version)]) ∧
    (∀ t, extractTag (headerChars inm) = some t →
      tagEqVersion t s.version = true →
      findWait none (headerChars prefer) = none →
      getTalksHandler s inm prefer =
        GetTalksOutcome.immediate { status := some 304 }) ∧
    (∀ t n, extractTag (headerChars inm) = some t →
      tagEqVersion t s.version = true →
      findWait none (headerChars prefer) = some n →
      getTalksHandler s inm prefer = GetTalksOutcome.waitFor n) := by
  refine ⟨?_, ?_, ?_⟩
  · rintro (h | ⟨t, ht, hne⟩)
    · exact ⟨by simp [getTalksHandler, h], rfl, rfl, rfl⟩
    · exact ⟨by simp [getTalksHandler, ht, hne], rfl, rfl, rfl⟩
  · intro t ht heq hw
    simp [getTalksHandler, ht, heq, hw]
  · intro t n ht heq hw
    simp [getTalksHandler, ht, heq, hw]

/-- C3 witness: on a fresh server (version 0), a stale validator answers
the snapshot immediately, a current validator with no preference answers
304, a current validator with `wait=5` defers to `waitForChanges(5)`, and
the loose comparison also treats the numeric spelling `" 0"` of version 0
as current (answering 304), as the JS `!=` between the captured string and
the numeric version does. -/
theorem C3_list_talks_witness :
    getTalksHandler (initState []) (some (("\x221\x22").toList)) none =
      GetTalksOutcome.immediate (talkResponse (initState [])) ∧
    getTalksHandler (initState []) (some (("\x220\x22").toList)) none =
      GetTalksOutcome.immediate { status := some 304 } ∧
    getTalksHandler (initState []) (some (("\x220\x22").toList))
        (some (("wait=5").toList)) = GetTalksOutcome.waitFor 5 ∧
    getTalksHandler (initState []) (some (("\x22 0\x22").toList)) none =
      GetTalksOutcome.immediate { status := some 304 } :=
  ⟨((C3_list_talks_negotiation (initState []) _ none).1
      (Or.inr ⟨("1").toList, by decide, by decide⟩)).1,
   (C3_list_talks_negotiation (initState []) _ none).2.1 (("0").toList)
      (by decide) (by decide) (by decide),
   (C3_list_talks_negotiation (initState []) _ _).2.2 (("0").toList) 5
      (by decide) (by decide) (by decide),
   (C3_list_talks_negotiation (initState []) _ none).2.1 ((" 0").toList)
      (by decide) (by decide) (by decide)⟩

/-- C10: an `If-None-Match` header that is present but contains no
double-quoted substring (for example an unquoted version number) makes the
`/"(.*)"/` extraction fail, and the request is handled exactly like one
with no validator: an immediate full snapshot written with status 200, and
no waiter is ever registered, whatever the `Prefer` header says. -/
theorem C10_unquoted_tag_means_no_validator (s : ServerState)
    (prefer : Option (List Char)) (hs : List Char) :
    extractTag hs = none →
    getTalksHandler s (some hs) prefer =
      GetTalksOutcome.immediate (talkResponse s) ∧
    (writeResponse (talkResponse s)).status = 200 ∧
    (∀ n, getTalksHandler s (some hs) prefer ≠ GetTalksOutcome.waitFor n) := by
  intro h
  have hmain : getTalksHandler s (some hs) prefer =
      GetTalksOutcome.immediate (talkResponse s) := by
    simp [getTalksHandler, headerChars, h]
  exact ⟨hmain, rfl, fun n hn => by rw [hmain] at hn; exact absurd hn (by simp)⟩

/-- C10 witness: an unquoted `0` at version 0 with `wait=5` present still
gets the immediate snapshot and registers nothing. -/
theorem C10_unquoted_tag_witness :
    getTalksHandler (initState []) (some (("0").toList))
        (some (("wait=5").toList)) =
      GetTalksOutcome.immediate (talkResponse (initState [])) :=
  (C10_unquoted_tag_means_no_validator (initState []) _ _ (by decide)).1

/-- A 400-class (4xx) response status. -/
def is4xx (r : Response) : Prop :=
  ∃ n, r.status = some n ∧ 400 ≤ n ∧ n < 500

/-- Helper: a value with a string field is an object, hence truthy. -/
theorem falsy_eq_false_of_hasStrField (v : JsValue) (k : List Char)
    (h : v.hasStrField k = true) : v.falsy = false := by
  cases v with
  | vobj fields => rfl
  | vnull => simp [JsValue.hasStrField, JsValue.getField] at h
  | vbool b => simp [JsValue.hasStrField, JsValue.getField] at h
  | vnum n => simp [JsValue.hasStrField, JsValue.getField] at h
  | vstr cs => simp [JsValue.hasStrField, JsValue.getField] at h
  | varr elems => simp [JsValue.hasStrField, JsValue.getField] at h

/-- Helper: a truthiness conjunct is redundant once a string field is
known present. -/
theorem truthy_and_fields (v : JsValue) (k₁ k₂ : List Char) :
    (!v.falsy && v.hasStrField k₁ && v.hasStrField k₂) =
      (v.hasStrField k₁ && v.hasStrField k₂) := by
  cases h₁ : v.hasStrField k₁ with
  | false => simp
  | true => simp [falsy_eq_false_of_hasStrField v k₁ h₁]

/-- Helper: the source test `commentBodyValid` agrees with the claim
condition "has string `author` and string `message`". -/
theorem commentBodyValid_eq (v : JsValue) :
    commentBodyValid v =
      (v.hasStrField (("author").toList) && v.hasStrField (("message").toList)) :=
  truthy_and_fields v (("author").toList) (("message").toList)

/-- The talk stored after a comment append: the present talk with the
parsed comment pushed onto its `comments`. -/
def appendComment (tk : Talk) (v : JsValue) : Talk :=
  { tk with comments := tk.comments ++ [commentOf v] }

/-- The server state after the comment append, before `updated()` runs. -/
def appendedState (s : ServerState) (title : List Char) (tk : Talk)
    (v : JsValue) : ServerState :=
  { s with talks := setKey s.talks title (appendComment tk v) }

/-- C8: the POST `/talks/{title}/comments` handler.  An unparsable body is
answered 400 "Invalid JSON" with no state change; a parsed body that is
not an object with string `author` and string `message` is answered with a
400-class status (concretely 404 "Bad comment data") with no state change;
a valid body on an absent title is answered 404 "No talk ... found" naming
the title, with no state change; a valid body on a present talk appends
the comment, calls `updated()` (delivering its notifications) and answers
204. -/
theorem C8_post_comment (s : ServerState) (title : List Char)
    (body : Option JsValue) :
    (body = none →
      postComment s title body =
        (s, [], { status := some 400, body := some (("Invalid JSON").toList) }) ∧
      is4xx (postComment s title body).2.2) ∧
    (∀ v, body = some v →
      (v.hasStrField (("author").toList) &&
        v.hasStrField (("message").toList)) = false →
      (postComment s title body).1 = s ∧
      (postComment s title body).2.1 = [] ∧
      is4xx (postComment s title body).2.2) ∧
    (∀ v, body = some v →
      (v.hasStrField (("author").toList) &&
        v.hasStrField (("message").toList)) = true →
      getKey s.talks title = none →
      postComment s title body =
        (s, [],
         { status := some 404,
           body := some (("No talk \x27").toList ++ title
             ++ ("\x27 found").toList) })) ∧
    (∀ v tk, body = some v →
      (v.hasStrField (("author").toList) &&
        v.hasStrField (("message").toList)) = true →
      getKey s.talks title = some tk →
      postComment s title body =
        ((updated (appendedState s title tk v)).1,
         (updated (appendedState s title tk v)).2,
         { status := some 204 })) := by
  refine ⟨?_, ?_, ?_, ?_⟩
  · rintro rfl
    exact ⟨rfl, 400, rfl, by omega, by omega⟩
  · rintro v rfl h
    have hv : commentBodyValid v = false := by rw [commentBodyValid_eq, h]
    refine ⟨by simp [postComment, hv], by simp [postComment, hv], ?_⟩
    refine ⟨404, by simp [postComment, hv], by omega, by omega⟩
  · rintro v rfl h hk
    have hv : commentBodyValid v = true := by rw [commentBodyValid_eq, h]
    simp [postComment, hv, hk]
  · rintro v tk rfl h hk
    have hv : commentBodyValid v = true := by rw [commentBodyValid_eq, h]
    simp [postComment, hv, hk, appendedState, appendComment]

/-- A concrete valid comment body for the C8 witness. -/
def exComment : JsValue :=
  JsValue.vobj [((("author").toList), JsValue.vstr (("an").toList)),
                ((("message").toList), JsValue.vstr (("hi").toList))]

/-- A concrete talk for the C8 witness. -/
def exTalk : Talk :=
  { title := ("T").toList, presenter := ("p").toList,
    summary := ("s").toList, comments := [] }

/-- The server state holding only `exTalk`, for the C8 witness. -/
def exState : ServerState :=
  initState [((("T").toList), exTalk)]

/-- C8 witness: all four branches exercised at concrete inputs. -/
theorem C8_post_comment_witness :
    postComment (initState []) (("T").toList) none =
      (initState [], [],
       { status := some 400, body := some (("Invalid JSON").toList) }) ∧
    (postComment (initState []) (("T").toList) (some (JsValue.vobj []))).1 =
      initState [] ∧
    postComment (initState []) (("T").toList) (some exComment) =
      (initState [], [],
       { status := some 404,
         body := some (("No talk \x27").toList ++ ("T").toList
           ++ ("\x27 found").toList) }) ∧
    postComment exState (("T").toList) (some exComment) =
      ((updated (appendedState exState (("T").toList) exTalk exComment)).1,
       (updated (appendedState exState (("T").toList) exTalk exComment)).2,
       { status := some 204 }) :=
  ⟨((C8_post_comment (initState []) (("T").toList) none).1 rfl).1,
   ((C8_post_comment (initState []) (("T").toList) (some (JsValue.vobj []))).2.1
      (JsValue.vobj []) rfl (by decide)).1,
   (C8_post_comment (initState []) (("T").toList) (some exComment)).2.2.1
      exComment rfl (by decide) (by decide),
   (C8_post_comment exState (("T").toList) (some exComment)).2.2.2
      exComment exTalk rfl (by decide) (by decide)⟩

/-- Helper: one handled request changes `version` by 1 when it is a
successful mutation and by 0 otherwise. -/
theorem step_version (s : ServerState) (r : Request) :
    (step s r).version = s.version + (if isMutation s r then 1 else 0) := by
  cases r with
  | rGetTalk t => simp [step, isMutation]
  | rDeleteTalk t =>
      by_cases h : (getKey s.talks t).isSome
      · simp [step, deleteTalk, isMutation, h, updated]
      · simp [step, deleteTalk, isMutation, h]
  | rPutTalk t b =>
      cases b with
      | none => simp [step, putTalk, isMutation]
      | some v =>
          by_cases h : talkBodyValid v
          · simp [step, putTalk, isMutation, h, updated]
          · simp [step, putTalk, isMutation, h]
  | rPostComment t b =>
      cases b with
      | none => simp [step, postComment, isMutation]
      | some v =>
          by_cases hv : commentBodyValid v
          · cases hk : getKey s.talks t with
            | some tk => simp [step, postComment, isMutation, hv, hk, updated]
            | none => simp [step, postComment, isMutation, hv, hk]
          · simp [step, postComment, isMutation, hv]
  | rGetTalks inm prefer =>
      cases h : getTalksHandler s inm prefer with
      | immediate r => simp [step, h, isMutation]
      | waitFor n => simp [step, h, isMutation, waitForChanges]

/-- Helper: over a whole request sequence, the final version is the
starting version plus the number of successful mutations. -/
theorem runCount_version (s : ServerState) (rs : List Request) :
    (runCount s rs).1.version = s.version + (runCount s rs).2 := by
  induction rs generalizing s with
  | nil => simp [runCount]
  | cons r rest ih =>
      have h₁ := ih (step s r)
      have h₂ := step_version s r
      simp only [runCount]
      omega

/-- C4: the version counter starts at 0; over every request sequence it
ends at the start value plus the count of successful mutations along the
trajectory (so it is monotonically non-decreasing and counts exactly the
successful mutations); and in particular a DELETE of an absent title
answers 204 and leaves the whole state unchanged. -/
theorem C4_version_counts_mutations :
    (∀ ts, (initState ts).version = 0) ∧
    (∀ s rs, (runCount s rs).1.version = s.version + (runCount s rs).2) ∧
    (∀ s rs, s.version ≤ (runCount s rs).1.version) ∧
    (∀ s t, getKey s.talks t = none →
      deleteTalk s t = (s, [], { status := some 204 })) := by
  refine ⟨fun ts => rfl, runCount_version, ?_, ?_⟩
  · intro s rs
    rw [runCount_version]
    exact Nat.le_add_right _ _
  · intro s t h
    simp [deleteTalk, h]

/-- C4 witness: deleting a never-created talk on a fresh server answers
204 and changes nothing, and the counting equation holds on a concrete
trace. -/
theorem C4_version_witness :
    deleteTalk (initState []) (("X").toList) =
      (initState [], [], { status := some 204 }) ∧
    (runCount (initState []) [Request.rDeleteTalk (("X").toList)]).1.version =
      (initState []).version +
        (runCount (initState []) [Request.rDeleteTalk (("X").toList)]).2 :=
  ⟨C4_version_counts_mutations.2.2.2 (initState []) (("X").toList) rfl,
   C4_version_counts_mutations.2.1 (initState [])
     [Request.rDeleteTalk (("X").toList)]⟩

/-- Helper: a successful `talkPath` match decomposes the whole path — the
pattern is anchored at both ends, so nothing outside `/talks/{capture}` is
consumed or left over. -/
theorem talkPathExec_some (p seg : List Char)
    (h : talkPathExec p = some seg) :
    p = ("/talks/").toList ++ seg ∧ seg ≠ [] ∧
      seg.all (fun c => c ≠ '/') = true := by
  simp only [talkPathExec] at h
  split at h
  · next hc =>
      obtain ⟨h₁, h₂, h₃⟩ := hc
      cases h
      refine ⟨?_, h₂, h₃⟩
      conv_lhs => rw [← List.take_append_drop 7 p]
      rw [h₁]
  · exact absurd h (by simp)

/-- Helper: a successful `talkPathAddComment` match decomposes the whole
path as `/talks/{capture}/comments`. -/
theorem talkPathAddCommentExec_some (p seg : List Char)
    (h : talkPathAddCommentExec p = some seg) :
    p = ("/talks/").toList ++ seg ++ ("/comments").toList ∧ seg ≠ [] ∧
      seg.all (fun c => c ≠ '/') = true := by
  simp only [talkPathAddCommentExec] at h
  split at h
  · next hc =>
      obtain ⟨h₁, h₂, h₃, h₄⟩ := hc
      cases h
      refine ⟨?_, h₃, h₄⟩
      have e₁ : (p.drop 7).reverse =
          ("/comments").toList.reverse ++ (p.drop 7).reverse.drop 9 := by
        conv_lhs => rw [← List.take_append_drop 9 (p.drop 7).reverse]
        rw [h₂]
      have e₂ : p.drop 7 =
          ((p.drop 7).reverse.drop 9).reverse ++ ("/comments").toList := by
        have e₃ := congrArg List.reverse e₁
        simpa [List.reverse_append] using e₃
      conv_lhs => rw [← List.take_append_drop 7 p, h₁, e₂]
      exact (List.append_assoc _ _ _).symm
  · exact absurd h (by simp)

/-- Helper: no path matches both capture patterns — the comment path has a
slash inside what `talkPath` would have to capture slash-free. -/
theorem talkPath_comment_disjoint (p : List Char)
    (h : talkPathExec p ≠ none) : talkPathAddCommentExec p = none := by
  cases hm : talkPathAddCommentExec p with
  | none => rfl
  | some seg₂ =>
      obtain ⟨seg₁, hs⟩ : ∃ sg, talkPathExec p = some sg := by
        cases he : talkPathExec p with
        | none => exact absurd he h
        | some sg => exact ⟨sg, rfl⟩
      obtain ⟨hp₁, _, hall⟩ := talkPathExec_some p seg₁ hs
      obtain ⟨hp₂, _, _⟩ := talkPathAddCommentExec_some p seg₂ hm
      rw [hp₁, List.append_assoc] at hp₂
      have hseg : seg₁ = seg₂ ++ ("/comments").toList :=
        List.append_cancel_left hp₂
      have hmem : '/' ∈ seg₁ := by
        rw [hseg]
        exact List.mem_append_right _ (by decide)
      have := List.all_eq_true.mp hall _ hmem
      simp at this

/-- Helper: a path matching `talkPath` is longer than `/talks`, so it never
also matches `talksPath`. -/
theorem talkPath_talks_disjoint (p : List Char)
    (h : talkPathExec p ≠ none) : talksPathExec p = false := by
  obtain ⟨seg, hs⟩ : ∃ sg, talkPathExec p = some sg := by
    cases he : talkPathExec p with
    | none => exact absurd he h
    | some sg => exact ⟨sg, rfl⟩
  obtain ⟨hp, hne, _⟩ := talkPathExec_some p seg hs
  have hne' : ¬ (p = ("/talks").toList) := by
    intro hEq
    have hlen := congrArg List.length hEq
    rw [hp, List.length_append] at hlen
    have h7 : (("/talks/").toList).length = 7 := rfl
    have h6 : (("/talks").toList).length = 6 := rfl
    rw [h7, h6] at hlen
    omega
  exact decide_eq_false hne'

/-- Helper: a path matching `talkPathAddComment` never matches
`talksPath` either. -/
theorem commentPath_talks_disjoint (p : List Char)
    (h : talkPathAddCommentExec p ≠ none) : talksPathExec p = false := by
  obtain ⟨seg, hs⟩ : ∃ sg, talkPathAddCommentExec p = some sg := by
    cases he : talkPathAddCommentExec p with
    | none => exact absurd he h
    | some sg => exact ⟨sg, rfl⟩
  obtain ⟨hp, hne, _⟩ := talkPathAddCommentExec_some p seg hs
  have hne' : ¬ (p = ("/talks").toList) := by
    intro hEq
    have hlen := congrArg List.length hEq
    rw [hp, List.length_append, List.length_append] at hlen
    have h7 : (("/talks/").toList).length = 7 := rfl
    have h9 : (("/comments").toList).length = 9 := rfl
    have h6 : (("/talks").toList).length = 6 := rfl
    rw [h7, h9, h6] at hlen
    omega
  exact decide_eq_false hne'

/-- C5: route matching is full-path anchored.  A `talkPath` match consumes
exactly `/talks/{capture}` and a `talkPathAddComment` match exactly
`/talks/{capture}/comments`; concretely, `/talks/x/comments` does not
match the talk pattern and `/talks/x` does not match the comment pattern;
and the three registered patterns are pairwise disjoint on every path, so
the registration order of prefix-sharing routes cannot change which
handler is chosen. -/
theorem C5_anchored_matching :
    (∀ p seg, talkPathExec p = some seg →
      p = ("/talks/").toList ++ seg ∧ seg ≠ [] ∧
        seg.all (fun c => c ≠ '/') = true) ∧
    (∀ p seg, talkPathAddCommentExec p = some seg →
      p = ("/talks/").toList ++ seg ++ ("/comments").toList ∧ seg ≠ [] ∧
        seg.all (fun c => c ≠ '/') = true) ∧
    talkPathExec (("/talks/x/comments").toList) = none ∧
    talkPathAddCommentExec (("/talks/x").toList) = none ∧
    (∀ p, talkPathExec p ≠ none → talkPathAddCommentExec p = none) ∧
    (∀ p, talkPathExec p ≠ none → talksPathExec p = false) ∧
    (∀ p, talkPathAddCommentExec p ≠ none → talksPathExec p = false) :=
  ⟨talkPathExec_some, talkPathAddCommentExec_some, by decide, by decide,
   talkPath_comment_disjoint, talkPath_talks_disjoint,
   commentPath_talks_disjoint⟩

/-- C5 witness: the anchoring decompositions and disjointness at concrete
paths. -/
theorem C5_anchored_witness :
    ("/talks/My").toList = ("/talks/").toList ++ ("My").toList ∧
    ("/talks/y/comments").toList =
      ("/talks/").toList ++ ("y").toList ++ ("/comments").toList ∧
    talkPathAddCommentExec (("/talks/y").toList) = none ∧
    talksPathExec (("/talks/z").toList) = false :=
  ⟨(C5_anchored_matching.1 (("/talks/My").toList) (("My").toList)
      (by decide)).1,
   (C5_anchored_matching.2.1 (("/talks/y/comments").toList) (("y").toList)
      (by decide)).1,
   C5_anchored_matching.2.2.2.2.1 (("/talks/y").toList) (by decide),
   C5_anchored_matching.2.2.2.2.2.1 (("/talks/z").toList) (by decide)⟩
